import Mathlib

set_option maxRecDepth 100000

/-!
Shallow embedding of `src/day16.py` (Advent of Code 2020, day 16): the
rule/ticket data model, the parser, the validity filter, the per-column
candidate computation and the elimination loop of `decypher_ticket`,
together with the two solvers `solve_part1` and `solve_part2`.

Python integers are modelled as `Int`, Python lists as `List`, Python
strings as `String` (taken apart through their character lists), `dict`
and `set` as insertion-ordered association lists / duplicate-free lists,
and fallible code by `Except PyErr`.
-/

/-- The Python exceptions the day-16 code can raise, plus the artificial
`outOfFuel` marker used to give the `while` loop of `decypher_ticket` a fuel
parameter (the fuel the program grants is proved below to never run out). -/
inductive PyErr where
  | typeError
  | valueError
  | keyError
  | nameError
  | indexError
  | outOfFuel
deriving DecidableEq

/-- A ticket rule `<name>: <lo1>-<hi1> or <lo2>-<hi2>`. The two ranges are
end-inclusive: `day16.py` stores `range(lo, hi + 1)` (lines 151-154). -/
structure Rule where
  name : String
  lo1 : Int
  hi1 : Int
  lo2 : Int
  hi2 : Int
deriving DecidableEq

/-- `Rule.is_valid` (day16.py lines 156-172): a value is valid when it lies in
either of the rule's two end-inclusive ranges (`value in range(lo, hi + 1)`). -/
def Rule.is_valid (r : Rule) (value : Int) : Bool :=
  (r.lo1 ≤ value && value ≤ r.hi1) || (r.lo2 ≤ value && value ≤ r.hi2)

/-- Calling `Rule(line)` (day16.py lines 146-154): `__init__` is declared with
the `staticmethod` decorator, so instance creation retrieves the undecorated
function and calls it with the single argument `line`; `line` binds to the
parameter `self`, the parameter `rule_str` receives no value, and every call
raises `TypeError` before the body (the regular-expression match) can run. -/
def ruleNew (_line : String) : Except PyErr Rule :=
  .error .typeError

/-- One step of Python `str.split(sep)` over character lists; `fuel` bounds
the number of characters consumed so that the recursion is structural. -/
def pySplitAux (sep : List Char) : Nat → List Char → List Char → List (List Char)
  | _, acc, [] => [acc.reverse]
  | 0, acc, s => [acc.reverse ++ s]
  | fuel + 1, acc, c :: rest =>
    if sep.isPrefixOf (c :: rest) then
      acc.reverse :: pySplitAux sep fuel [] (List.drop (sep.length - 1) rest)
    else
      pySplitAux sep fuel (c :: acc) rest

/-- Python `s.split(sep)` for a non-empty literal separator (the only way
day16.py splits): split at every non-overlapping occurrence, left to right.
The result is never the empty list. -/
def pySplit (s sep : String) : List String :=
  (pySplitAux sep.data s.data.length [] s.data).map String.mk

/-- Python `str.strip()`: drop leading and trailing whitespace. -/
def pyStrip (s : String) : String :=
  String.mk (((s.data.dropWhile Char.isWhitespace).reverse.dropWhile
    Char.isWhitespace).reverse)

/-- Decimal digits to a number; `none` when empty or a non-digit appears. -/
def pyDigits : List Char → Option Nat
  | [] => none
  | l => l.foldl
      (fun acc c => match acc with
        | none => none
        | some n => if c.isDigit then some (n * 10 + (c.toNat - 48)) else none)
      (some 0)

/-- Python `int(s)` on a decimal string literal: optional surrounding
whitespace, optional sign, at least one digit; anything else raises
`ValueError`. (Unreachable at run time: `parse_puzzle_input` fails at the
first rule line, see `ruleNew`.) -/
def pyInt (s : String) : Except PyErr Int :=
  match (pyStrip s).data with
  | '-' :: ds =>
    match pyDigits ds with
    | some n => .ok (-(n : Int))
    | none => .error .valueError
  | '+' :: ds =>
    match pyDigits ds with
    | some n => .ok (n : Int)
    | none => .error .valueError
  | ds =>
    match pyDigits ds with
    | some n => .ok (n : Int)
    | none => .error .valueError

/-- `parse_puzzle_input` (day16.py lines 175-213). The three `\n\n`-separated
blocks are unpacked (a different number of blocks raises `ValueError`); every
line of the first block is passed to the `Rule` constructor — which always
raises `TypeError`, see `ruleNew` — and then your ticket and the nearby
tickets are read as comma-separated integers. -/
def parse_puzzle_input (s : String) :
    Except PyErr (List Rule × List Int × List (List Int)) :=
  match pySplit s "\n\n" with
  | [rulesStr, yourTicketStr, nearbyTicketsStr] => do
    let rules ← (pySplit rulesStr "\n").mapM ruleNew
    let yourTicket ←
      match pySplit yourTicketStr "your ticket:" with
      | [_, numbersStr] => (pySplit numbersStr ",").mapM pyInt
      | _ => (.error .valueError : Except PyErr (List Int))
    let nearbyTickets ← ((pySplit (pyStrip nearbyTicketsStr) "\n").drop 1).mapM
      (fun line => (pySplit line ",").mapM pyInt)
    .ok (rules, yourTicket, nearbyTickets)
  | _ => .error .valueError

/-- The body of `solve_part1` after parsing (day16.py lines 93-100): the sum,
over all nearby tickets, of the values that satisfy none of the rules. -/
def solve_part1_core (rules : List Rule) (nearbyTickets : List (List Int)) : Int :=
  (nearbyTickets.map (fun ticket =>
    (ticket.filter
      (fun value => !(rules.any (fun rule => rule.is_valid value)))).sum)).sum

/-- `solve_part1` (day16.py lines 45-100). -/
def solve_part1 (s : String) : Except PyErr Int := do
  let (rules, _, nearbyTickets) ← parse_puzzle_input s
  .ok (solve_part1_core rules nearbyTickets)

/-- The validity filter of `decypher_ticket` (day16.py lines 255-258), exactly
as written there:
`all(any(rule.is_valid(value) for value in ticket) for rule in rules)` —
for every rule, some value of the ticket satisfies that rule. (The docstring
of the Python helper asks whether all the values are valid according to some
rule, which is the transposed quantification.) -/
def ticket_is_valid (rules : List Rule) (ticket : List Int) : Bool :=
  rules.all (fun rule => ticket.any (fun value => rule.is_valid value))

/-- The length of the shortest ticket, 0 when there are none: the number of
columns `zip(*nearby_tickets)` (day16.py line 262) produces. -/
def minLen : List (List Int) → Nat
  | [] => 0
  | t :: ts => ts.foldl (fun m u => min m u.length) t.length

/-- `zip(*tickets)` (day16.py line 262): the list of columns, truncated to the
shortest ticket; empty when there are no tickets. -/
def pyZipStar (tickets : List (List Int)) : List (List Int) :=
  (List.range (minLen tickets)).map (fun i => tickets.map (fun t => t.getD i 0))

/-- Python `set(...)` built from a generator of names: duplicate-free,
modelled in first-insertion order. (CPython's iteration order for a set of
strings is unspecified.) -/
def pySet (l : List String) : List String :=
  l.foldl (fun acc n => if n ∈ acc then acc else acc ++ [n]) []

/-- The candidate names for one column (day16.py lines 272-274): the names of
the rules that every observed value of the column satisfies. -/
def potential_names_for (rules : List Rule) (observedValues : List Int) :
    List String :=
  pySet ((rules.filter
    (fun rule => observedValues.all (fun v => rule.is_valid v))).map Rule.name)

/-- `potential_fields_names` (day16.py lines 270-275): column index ↦
candidate names, an insertion-ordered dictionary built over the columns of
the tickets retained by the validity filter. -/
def potential_fields_names (rules : List Rule)
    (nearbyTickets : List (List Int)) : List (Nat × List String) :=
  ((pyZipStar (nearbyTickets.filter (ticket_is_valid rules))).enum).map
    (fun p => (p.1, potential_names_for rules p.2))

/-- The `for ... if len(potential_names) == 1: break` search of the
elimination loop (day16.py lines 286-288): the first column whose candidate
set has exactly one name. When no column qualifies, the `for` loop leaves the
variables bound to the last dictionary item; when the dictionary is empty the
variables were never bound and the next use raises `NameError`. -/
def pickField (pfn : List (Nat × List String)) : Except PyErr (Nat × List String) :=
  match pfn.find? (fun p => p.2.length == 1) with
  | some p => .ok p
  | none =>
    match pfn.getLast? with
    | some p => .ok p
    | none => .error .nameError

/-- Python dict assignment `d[k] = v` on an insertion-ordered dictionary:
update in place when the key exists, append otherwise (day16.py line 292). -/
def dictInsert (d : List (String × Int)) (k : String) (v : Int) :
    List (String × Int) :=
  if d.any (fun p => p.1 == k) then
    d.map (fun p => if p.1 == k then (k, v) else p)
  else d ++ [(k, v)]

/-- The `while len(unassigned_field_names) > 0` loop of `decypher_ticket`
(day16.py lines 284-305), with an explicit fuel parameter. One iteration:
pick a column (`pickField`); `potential_names.pop()` removes and returns an
element of its candidate set (`KeyError` on an empty set; which element is
unspecified in CPython, modelled as the first); the popped name is mapped to
`your_ticket[field_num]` (`IndexError` when out of range); the name is then
removed from every column's candidate set and from the unassigned set
(`KeyError` when it is not there). `decypher_core` runs the loop with fuel
equal to the number of field names; granting more fuel never changes the
result, because each iteration retires one unassigned name. -/
def elimLoopF : Nat → List String → List (Nat × List String) → List Int →
    List (String × Int) → Except PyErr (List (String × Int))
  | _, [], _, _, decyphered => .ok decyphered
  | 0, _ :: _, _, _, _ => .error .outOfFuel
  | fuel + 1, unassigned@(_ :: _), pfn, yourTicket, decyphered =>
    match pickField pfn with
    | .error e => .error e
    | .ok (fieldNum, potentialNames) =>
      match potentialNames with
      | [] => .error .keyError
      | assignedName :: _ =>
        match yourTicket.get? fieldNum with
        | none => .error .indexError
        | some v =>
          if assignedName ∈ unassigned then
            elimLoopF fuel (unassigned.erase assignedName)
              (pfn.map (fun p => (p.1, p.2.erase assignedName)))
              yourTicket (dictInsert decyphered assignedName v)
          else .error .keyError

/-- `decypher_ticket` after parsing (day16.py lines 252-307): filter the
nearby tickets, compute the per-column candidate names, and run the
elimination loop with fuel equal to the number of distinct field names. -/
def decypher_core (rules : List Rule) (yourTicket : List Int)
    (nearbyTickets : List (List Int)) : Except PyErr (List (String × Int)) :=
  let pfn := potential_fields_names rules nearbyTickets
  let unassigned := pySet (rules.map Rule.name)
  elimLoopF unassigned.length unassigned pfn yourTicket []

/-- `decypher_ticket` (day16.py lines 216-307). -/
def decypher_ticket (s : String) : Except PyErr (List (String × Int)) := do
  let (rules, yourTicket, nearbyTickets) ← parse_puzzle_input s
  decypher_core rules yourTicket nearbyTickets

/-- The body of `solve_part2` after decyphering (day16.py lines 124-128): the
product of the decyphered values whose field name starts with `departure`. -/
def solve_part2_core (decypheredTicket : List (String × Int)) : Int :=
  decypheredTicket.foldl
    (fun acc p => if p.1.startsWith "departure" then acc * p.2 else acc) 1

/-- `solve_part2` (day16.py lines 103-128). -/
def solve_part2 (s : String) : Except PyErr Int := do
  let d ← decypher_ticket s
  .ok (solve_part2_core d)

/-- The rule `class: 1-3 or 5-7` of the part-1 example (day16.py line 59). -/
def ruleClassEx1 : Rule := ⟨"class", 1, 3, 5, 7⟩

/-- The rule `row: 6-11 or 33-44` of the part-1 example (day16.py line 60). -/
def ruleRowEx1 : Rule := ⟨"row", 6, 11, 33, 44⟩

/-- The rule `seat: 13-40 or 45-50` of the part-1 example (day16.py line 61). -/
def ruleSeatEx1 : Rule := ⟨"seat", 13, 40, 45, 50⟩

/-- The rules of the part-1 example. -/
def ex1Rules : List Rule := [ruleClassEx1, ruleRowEx1, ruleSeatEx1]

/-- The nearby tickets of the part-1 example (day16.py lines 66-70). -/
def ex1Nearby : List (List Int) := [[7, 3, 47], [40, 4, 50], [55, 2, 20], [38, 6, 12]]

/-- The part-1 example input (day16.py lines 59-70), as a raw string. -/
def ex1Input : String :=
  "class: 1-3 or 5-7\nrow: 6-11 or 33-44\nseat: 13-40 or 45-50\n\nyour ticket:\n7,1,14\n\nnearby tickets:\n7,3,47\n40,4,50\n55,2,20\n38,6,12"

/-- The rules of the part-2 example (day16.py lines 232-234). -/
def ex2Rules : List Rule :=
  [⟨"class", 0, 1, 4, 19⟩, ⟨"row", 0, 5, 8, 19⟩, ⟨"seat", 0, 13, 16, 19⟩]

/-- The `row: 0-5 or 8-19` rule of the part-2 example. -/
def ruleRowEx2 : Rule := ⟨"row", 0, 5, 8, 19⟩

/-- The nearby tickets of the part-2 example (day16.py lines 240-242). -/
def ex2Nearby : List (List Int) := [[3, 9, 18], [15, 1, 5], [5, 14, 9]]

/-- The part-2 example input (day16.py lines 232-242), as a raw string. -/
def ex2Input : String :=
  "class: 0-1 or 4-19\nrow: 0-5 or 8-19\nseat: 0-13 or 16-19\n\nyour ticket:\n11,12,13\n\nnearby tickets:\n3,9,18\n15,1,5\n5,14,9"

/-- A rule `a: 0-9 or 0-9` for an input admitting no elimination step. -/
def ruleNarrowA : Rule := ⟨"a", 0, 9, 0, 9⟩

/-- A rule `b: 0-9 or 0-9` for an input admitting no elimination step. -/
def ruleNarrowB : Rule := ⟨"b", 0, 9, 0, 9⟩

/-- A rule `a: 0-19 or 0-19`; three copies under different names make every
column's candidate set the full name set. -/
def dupRuleA : Rule := ⟨"a", 0, 19, 0, 19⟩

/-- A rule `b: 0-19 or 0-19`. -/
def dupRuleB : Rule := ⟨"b", 0, 19, 0, 19⟩

/-- A rule `c: 0-19 or 0-19`. -/
def dupRuleC : Rule := ⟨"c", 0, 19, 0, 19⟩

/-- One elimination run of the field resolver, abstractly: starting from the
set `D` of unassigned columns with candidate-name sets `P`, repeatedly pick
ANY column whose candidate set is a singleton, assign that name to the
column, and remove the name from every candidate set. `Elim D P σ` holds
when some order of such choices assigns every column of `D`, producing the
assignment `σ`. The loop of `decypher_core` performs one particular order of
such steps (always the lowest-numbered singleton column). -/
inductive Elim : Finset Nat → (Nat → Finset String) → (Nat → Option String) → Prop where
  | done : ∀ P, Elim ∅ P (fun _ => none)
  | step : ∀ (D : Finset Nat) (P : Nat → Finset String) (σ : Nat → Option String)
      (c : Nat) (n : String), c ∈ D → P c = {n} →
      Elim (D.erase c) (fun d => (P d).erase n) σ →
      Elim D P (fun d => if d = c then some n else σ d)

/-- A total, injective choice of one candidate name for every unassigned
column of `D`, and nothing elsewhere. -/
def IsSol (D : Finset Nat) (P : Nat → Finset String) (τ : Nat → Option String) : Prop :=
  (∀ c ∈ D, ∃ n, τ c = some n ∧ n ∈ P c) ∧
  (∀ c, c ∉ D → τ c = none) ∧
  (∀ c ∈ D, ∀ c' ∈ D, τ c = τ c' → c = c')

/-- The candidate map of the order-independence witness: column 0 admits only
the name `a`, column 1 only the name `b`. -/
def exElimP : Nat → Finset String :=
  fun d => if d = 0 then {"a"} else if d = 1 then {"b"} else ∅

/-- C1. The validity filter written on day16.py lines 255-258 keeps the ticket
`[7, 100]` under the rules `class: 1-3 or 5-7` and `row: 6-11 or 33-44`
although the value 100 satisfies no rule, and the kept ticket's values — 100
included — are exactly what the per-column candidate computation receives. -/
theorem filter_keeps_ticket_with_unmatchable_value :
    ticket_is_valid [ruleClassEx1, ruleRowEx1] [7, 100] = true ∧
    (([7, 100] : List Int).all
      (fun v => ([ruleClassEx1, ruleRowEx1]).any (fun r => r.is_valid v))) = false ∧
    pyZipStar (([[7, 100]] : List (List Int)).filter
      (ticket_is_valid [ruleClassEx1, ruleRowEx1])) = [[7], [100]] :=
  ⟨rfl, rfl, rfl⟩

/-- C2. On rules `a: 0-9 or 0-9` and `b: 0-9 or 0-9` with nearby ticket
`3,4`, both columns start with the two-element candidate set; no column has
exactly one candidate, yet the elimination loop pops a guess from the last
column's set and returns a complete mapping instead of raising an error. -/
theorem loop_guesses_when_no_singleton :
    ((potential_fields_names [ruleNarrowA, ruleNarrowB] [[3, 4]]).all
      (fun p => p.2.length != 1)) = true ∧
    decypher_core [ruleNarrowA, ruleNarrowB] [1, 2] [[3, 4]] =
      .ok [("a", 2), ("b", 1)] :=
  ⟨rfl, rfl⟩

/-- C3. On the part-1 example input, `solve_part1` raises `TypeError` at the
first `Rule(...)` call (see `ruleNew`) instead of returning 71; the error-rate
computation that follows the parse (day16.py lines 93-100) does yield 71 on
the example's rules and nearby tickets. -/
theorem part1_example_raises_but_core_is_71 :
    solve_part1 ex1Input = .error .typeError ∧
    solve_part1_core ex1Rules ex1Nearby = 71 :=
  ⟨rfl, rfl⟩

/-- C5. On the part-2 example input, `decypher_ticket` raises `TypeError` at
the first `Rule(...)` call (see `ruleNew`) instead of returning the mapping;
the decyphering performed after the parse (day16.py lines 252-307) does
return `{row: 11, class: 12, seat: 13}` on the example's parsed data. -/
theorem decypher_example_raises_but_core_resolves :
    decypher_ticket ex2Input = .error .typeError ∧
    decypher_core ex2Rules [11, 12, 13] ex2Nearby =
      .ok [("row", 11), ("class", 12), ("seat", 13)] :=
  ⟨rfl, rfl⟩

/-- C7. The `Rule` constructor raises `TypeError` even on a rule line that
matches the documented shape, and `parse_puzzle_input` therefore reports
`TypeError` — not a parse error — on the (well-formed) example input. -/
theorem rule_constructor_always_raises :
    ruleNew "class: 1-3 or 5-7" = .error .typeError ∧
    parse_puzzle_input ex1Input = .error .typeError :=
  ⟨rfl, rfl⟩

/-- C8. With three rules of identical ranges (names `a`, `b`, `c`), your
ticket `11,12,13` and the single nearby ticket `1,2,3`, the loop falls
through to the last column twice: the returned mapping pairs two field names
with the value of column 2 and never uses column 1, so a returned mapping
need not pair the names with distinct columns. -/
theorem mapping_reuses_a_column :
    decypher_core [dupRuleA, dupRuleB, dupRuleC] [11, 12, 13] [[1, 2, 3]] =
      .ok [("a", 13), ("b", 13), ("c", 11)] ∧
    ((([("a", 13), ("b", 13), ("c", 11)] : List (String × Int)).map
      Prod.snd).count 13) = 2 ∧
    (12 : Int) ∉ (([("a", 13), ("b", 13), ("c", 11)] : List (String × Int)).map
      Prod.snd) :=
  ⟨rfl, by decide, by decide⟩

/-- Folding the `set`-insertion step over a list reaches exactly the elements
of the accumulator and of the list. -/
theorem mem_pySet_aux (l : List String) : ∀ (acc : List String) (x : String),
    (x ∈ l.foldl (fun acc n => if n ∈ acc then acc else acc ++ [n]) acc ↔
      x ∈ acc ∨ x ∈ l) := by
  induction l with
  | nil => simp
  | cons a t ih =>
    intro acc x
    simp only [List.foldl_cons]
    rw [ih]
    by_cases ha : a ∈ acc
    · rw [if_pos ha]
      simp only [List.mem_cons]
      constructor
      · rintro (h | h)
        · exact Or.inl h
        · exact Or.inr (Or.inr h)
      · rintro (h | h | h)
        · exact Or.inl h
        · exact Or.inl (h ▸ ha)
        · exact Or.inr h
    · rw [if_neg ha]
      simp only [List.mem_append, List.mem_singleton, List.mem_cons]
      tauto

/-- Membership in the modelled Python set is membership in the generator. -/
theorem mem_pySet {x : String} {l : List String} : x ∈ pySet l ↔ x ∈ l := by
  unfold pySet
  rw [mem_pySet_aux]
  simp

/-- C4. A rule's name is a candidate for a column of `potential_fields_names`
exactly when every value observed in that column (across the tickets retained
by the validity filter) satisfies the rule; and range endpoints are
inclusive: under `class: 1-3 or 5-7` the values 3 and 5 are valid while 4 is
not. -/
theorem candidate_iff_every_observed_value_valid :
    (∀ (rules : List Rule) (nearbyTickets : List (List Int)) (r : Rule)
      (i : Nat) (ns : List String),
      (rules.map Rule.name).Nodup → r ∈ rules →
      (i, ns) ∈ potential_fields_names rules nearbyTickets →
      (r.name ∈ ns ↔ ∀ v ∈ (pyZipStar (nearbyTickets.filter
        (ticket_is_valid rules))).getD i [], r.is_valid v = true)) ∧
    (ruleClassEx1.is_valid 3 = true ∧ ruleClassEx1.is_valid 5 = true ∧
      ruleClassEx1.is_valid 4 = false) := by
  refine ⟨?_, by decide, by decide, by decide⟩
  intro rules nt r i ns hnd hr hmem
  unfold potential_fields_names at hmem
  obtain ⟨⟨j, obs⟩, hjm, heq⟩ := List.mem_map.mp hmem
  have h1 : j = i := congrArg Prod.fst heq
  have h2 : potential_names_for rules obs = ns := congrArg Prod.snd heq
  subst h1
  subst h2
  have hget : (pyZipStar (nt.filter (ticket_is_valid rules)))[j]? = some obs :=
    List.mk_mem_enum_iff_getElem?.mp hjm
  rw [List.getD_eq_getD_get?, List.get?_eq_getElem?, hget]
  unfold potential_names_for
  rw [mem_pySet]
  constructor
  · intro h v hv
    obtain ⟨r', hr', hname⟩ := List.mem_map.mp h
    rw [List.mem_filter] at hr'
    have hrr : r' = r := List.inj_on_of_nodup_map hnd hr'.1 hr hname
    subst hrr
    exact List.all_eq_true.mp hr'.2 v hv
  · intro h
    exact List.mem_map.mpr ⟨r, List.mem_filter.mpr ⟨hr,
      List.all_eq_true.mpr h⟩, rfl⟩

/-- Witness for `candidate_iff_every_observed_value_valid`, at the part-2
example: in column 0 the candidate set is exactly the one name `row`. -/
theorem candidate_iff_witness :
    ("row" ∈ (["row"] : List String) ↔ ∀ v ∈ (pyZipStar (ex2Nearby.filter
      (ticket_is_valid ex2Rules))).getD 0 [], ruleRowEx2.is_valid v = true) :=
  candidate_iff_every_observed_value_valid.1 ex2Rules ex2Nearby ruleRowEx2 0
    ["row"] (by decide) (by decide) (by decide)

/-- With no unassigned names left, the loop stops at once, for any fuel. -/
theorem elimLoopF_nil (fuel : Nat) (pfn : List (Nat × List String))
    (yourTicket : List Int) (decyphered : List (String × Int)) :
    elimLoopF fuel [] pfn yourTicket decyphered = .ok decyphered := by
  cases fuel <;> rfl

/-- The loop's answer does not depend on the fuel, as long as the fuel is at
least the number of unassigned names: every iteration that recurses removes
the assigned name from the unassigned list. -/
theorem elimLoopF_fuel_mono : ∀ (fuel fuel' : Nat) (unassigned : List String)
    (pfn : List (Nat × List String)) (yourTicket : List Int)
    (decyphered : List (String × Int)),
    unassigned.length ≤ fuel → unassigned.length ≤ fuel' →
    elimLoopF fuel unassigned pfn yourTicket decyphered =
      elimLoopF fuel' unassigned pfn yourTicket decyphered := by
  intro fuel
  induction fuel with
  | zero =>
    intro fuel' u pfn yt d h _
    have hu : u = [] := List.eq_nil_of_length_eq_zero (Nat.le_zero.mp h)
    subst hu
    rw [elimLoopF_nil, elimLoopF_nil]
  | succ f ih =>
    intro fuel' u pfn yt d h h'
    cases u with
    | nil => rw [elimLoopF_nil, elimLoopF_nil]
    | cons nm rest =>
      cases fuel' with
      | zero => simp at h'
      | succ f' =>
        cases hpick : pickField pfn with
        | error e => simp only [elimLoopF, hpick]
        | ok fp =>
          obtain ⟨fieldNum, pnames⟩ := fp
          cases pnames with
          | nil => simp only [elimLoopF, hpick]
          | cons assigned tl =>
            cases hget : yt.get? fieldNum with
            | none => simp only [elimLoopF, hpick, hget]
            | some v =>
              simp only [elimLoopF, hpick, hget]
              by_cases hmem : assigned ∈ (nm :: rest)
              · rw [if_pos hmem, if_pos hmem]
                have hlen : ((nm :: rest).erase assigned).length + 1 =
                    (nm :: rest).length := List.length_erase_add_one hmem
                apply ih
                · omega
                · omega
              · rw [if_neg hmem, if_neg hmem]

/-- C10. Each iteration of the elimination loop retires one unassigned field
name, so fuel equal to the number of unassigned names is never exhausted:
granting any larger fuel yields the same answer, and `decypher_core` runs
`elimLoopF` with exactly that much fuel. The loop therefore performs at most
one iteration per rule name and always produces an answer — a mapping or an
exception — even when no column ever has exactly one candidate. -/
theorem elimination_one_iteration_per_name :
    (∀ (fuel : Nat) (unassigned : List String) (pfn : List (Nat × List String))
      (yourTicket : List Int) (decyphered : List (String × Int)),
      unassigned.length ≤ fuel →
      elimLoopF fuel unassigned pfn yourTicket decyphered =
        elimLoopF unassigned.length unassigned pfn yourTicket decyphered) ∧
    (∀ (rules : List Rule) (yourTicket : List Int)
      (nearbyTickets : List (List Int)),
      decypher_core rules yourTicket nearbyTickets =
        elimLoopF (pySet (rules.map Rule.name)).length
          (pySet (rules.map Rule.name))
          (potential_fields_names rules nearbyTickets) yourTicket []) :=
  ⟨fun fuel u pfn yt d h =>
    elimLoopF_fuel_mono fuel u.length u pfn yt d h (Nat.le_refl _),
   fun _ _ _ => rfl⟩

/-- Witness for `elimination_one_iteration_per_name`: with one unassigned
name, fuel 99 and fuel 1 agree. -/
theorem elimination_fuel_witness :
    elimLoopF 99 ["a"] [(0, ["a"])] [5] [] =
      elimLoopF 1 ["a"] [(0, ["a"])] [5] [] :=
  elimination_one_iteration_per_name.1 99 ["a"] [(0, ["a"])] [5] [] (by decide)

/-- An entry of `dictInsert d k v` is an old entry or the new pair. -/
theorem dictInsert_mem {d : List (String × Int)} {k : String} {v : Int}
    {p : String × Int} (h : p ∈ dictInsert d k v) : p ∈ d ∨ p = (k, v) := by
  unfold dictInsert at h
  split at h
  · obtain ⟨q, hq, hqe⟩ := List.mem_map.mp h
    split at hqe
    · exact Or.inr hqe.symm
    · exact Or.inl (hqe ▸ hq)
  · rcases List.mem_append.mp h with h1 | h1
    · exact Or.inl h1
    · exact Or.inr (List.mem_singleton.mp h1)

/-- Every entry of a mapping produced by the elimination loop is either an
entry of the accumulator or carries a value of your ticket: the loop only
ever inserts `your_ticket[field_num]`. -/
theorem elimLoopF_values : ∀ (fuel : Nat) (unassigned : List String)
    (pfn : List (Nat × List String)) (yourTicket : List Int)
    (decyphered result : List (String × Int)),
    elimLoopF fuel unassigned pfn yourTicket decyphered = .ok result →
    ∀ p ∈ result, p ∈ decyphered ∨ p.2 ∈ yourTicket := by
  intro fuel
  induction fuel with
  | zero =>
    intro u pfn yt d res h p hp
    cases u with
    | nil =>
      rw [elimLoopF_nil] at h
      injection h with h
      subst h
      exact Or.inl hp
    | cons nm rest =>
      simp only [elimLoopF] at h
      exact Except.noConfusion h
  | succ f ih =>
    intro u pfn yt d res h p hp
    cases u with
    | nil =>
      rw [elimLoopF_nil] at h
      injection h with h
      subst h
      exact Or.inl hp
    | cons nm rest =>
      cases hpick : pickField pfn with
      | error e =>
        simp only [elimLoopF, hpick] at h
        exact Except.noConfusion h
      | ok fp =>
        obtain ⟨fieldNum, pnames⟩ := fp
        cases pnames with
        | nil =>
          simp only [elimLoopF, hpick] at h
          exact Except.noConfusion h
        | cons assigned tl =>
          cases hget : yt.get? fieldNum with
          | none =>
            simp only [elimLoopF, hpick, hget] at h
            exact Except.noConfusion h
          | some v =>
            simp only [elimLoopF, hpick, hget] at h
            by_cases hmem : assigned ∈ (nm :: rest)
            · rw [if_pos hmem] at h
              rcases ih _ _ _ _ _ h p hp with h1 | h1
              · rcases dictInsert_mem h1 with h2 | h2
                · exact Or.inl h2
                · subst h2
                  exact Or.inr (List.getElem?_mem (List.get?_eq_getElem? yt fieldNum ▸ hget))
              · exact Or.inr h1
            · rw [if_neg hmem] at h
              exact Except.noConfusion h

/-- Folding the `solve_part2` accumulation step multiplies the start value by
the product of the values whose name starts with `departure`. -/
theorem solve_part2_core_foldl (d : List (String × Int)) : ∀ init : Int,
    d.foldl (fun acc p => if p.1.startsWith "departure" then acc * p.2 else acc)
      init =
    init * ((d.filter (fun p => p.1.startsWith "departure")).map Prod.snd).prod := by
  induction d with
  | nil => intro init; simp
  | cons q t ih =>
    intro init
    by_cases hq : q.1.startsWith "departure"
    · simp only [List.foldl_cons, List.filter_cons, hq, if_true, ih,
        List.map_cons, List.prod_cons]
      ring
    · simp only [List.foldl_cons, List.filter_cons, hq, if_false, ih,
        Bool.false_eq_true]

/-- C6. `solve_part2_core` returns exactly the product of the decyphered
values whose field name starts with `departure`, and every value of a
mapping returned by `decypher_core` is one of your ticket's values — the
nearby tickets only steer the candidate inference, never the answer. -/
theorem part2_multiplies_departure_fields_of_your_ticket :
    (∀ d : List (String × Int), solve_part2_core d =
      ((d.filter (fun p => p.1.startsWith "departure")).map Prod.snd).prod) ∧
    (∀ (rules : List Rule) (yourTicket : List Int)
      (nearbyTickets : List (List Int)) (result : List (String × Int)),
      decypher_core rules yourTicket nearbyTickets = .ok result →
      ∀ p ∈ result, p.2 ∈ yourTicket) := by
  constructor
  · intro d
    unfold solve_part2_core
    rw [solve_part2_core_foldl]
    exact one_mul _
  · intro rules yt nt res h p hp
    unfold decypher_core at h
    rcases elimLoopF_values _ _ _ _ _ _ h p hp with h1 | h1
    · exact absurd h1 (List.not_mem_nil p)
    · exact h1

/-- Witness for `part2_multiplies_departure_fields_of_your_ticket`: in the
part-2 example, the resolved value of the `row` field is one of your
ticket's values. -/
theorem part2_values_witness : (11 : Int) ∈ ([11, 12, 13] : List Int) :=
  part2_multiplies_departure_fields_of_your_ticket.2 ex2Rules [11, 12, 13]
    ex2Nearby [("row", 11), ("class", 12), ("seat", 13)] (by rfl)
    ("row", 11) (by decide)

/-- An elimination run produces a total, injective choice of candidates. -/
theorem elim_isSol {D : Finset Nat} {P : Nat → Finset String}
    {σ : Nat → Option String} (h : Elim D P σ) : IsSol D P σ := by
  induction h with
  | done P =>
    exact ⟨fun c hc => absurd hc (Finset.not_mem_empty c),
      fun c _ => rfl,
      fun c hc => absurd hc (Finset.not_mem_empty c)⟩
  | step D P σ c n hc hP hrec ih =>
    obtain ⟨ih1, ih2, ih3⟩ := ih
    refine ⟨?_, ?_, ?_⟩
    · intro d hd
      by_cases hdc : d = c
      · subst hdc
        exact ⟨n, if_pos rfl, hP ▸ Finset.mem_singleton_self n⟩
      · obtain ⟨k, hk1, hk2⟩ := ih1 d (Finset.mem_erase.mpr ⟨hdc, hd⟩)
        refine ⟨k, ?_, (Finset.mem_erase.mp hk2).2⟩
        show (if d = c then some n else σ d) = some k
        rw [if_neg hdc]
        exact hk1
    · intro d hd
      have hdc : d ≠ c := fun he => hd (he ▸ hc)
      have hde : d ∉ D.erase c := fun he => hd (Finset.mem_of_mem_erase he)
      show (if d = c then some n else σ d) = none
      rw [if_neg hdc]
      exact ih2 d hde
    · intro d hd d' hd' heq
      replace heq : (if d = c then some n else σ d) =
          (if d' = c then some n else σ d') := heq
      by_cases hdc : d = c <;> by_cases hdc' : d' = c
      · rw [hdc, hdc']
      · exfalso
        rw [if_pos hdc, if_neg hdc'] at heq
        obtain ⟨k, hk1, hk2⟩ := ih1 d' (Finset.mem_erase.mpr ⟨hdc', hd'⟩)
        rw [hk1] at heq
        injection heq with heq
        exact (Finset.mem_erase.mp hk2).1 heq.symm
      · exfalso
        rw [if_neg hdc, if_pos hdc'] at heq
        obtain ⟨k, hk1, hk2⟩ := ih1 d (Finset.mem_erase.mpr ⟨hdc, hd⟩)
        rw [hk1] at heq
        injection heq with heq
        exact (Finset.mem_erase.mp hk2).1 heq
      · rw [if_neg hdc, if_neg hdc'] at heq
        exact ih3 d (Finset.mem_erase.mpr ⟨hdc, hd⟩) d'
          (Finset.mem_erase.mpr ⟨hdc', hd'⟩) heq

/-- The assignment reached by an elimination run is the only total injective
choice of candidates — whatever order of singleton columns the run used. -/
theorem elim_unique {D : Finset Nat} {P : Nat → Finset String}
    {σ : Nat → Option String} (h : Elim D P σ) :
    ∀ τ, IsSol D P τ → τ = σ := by
  induction h with
  | done P =>
    intro τ ht
    funext d
    exact ht.2.1 d (Finset.not_mem_empty d)
  | step D P σ c n hc hP hrec ih =>
    intro τ ht
    obtain ⟨h1, h2, h3⟩ := ht
    obtain ⟨m, hm1, hm2⟩ := h1 c hc
    rw [hP, Finset.mem_singleton] at hm2
    subst hm2
    have hsol : IsSol (D.erase c) (fun d => (P d).erase m)
        (fun d => if d = c then none else τ d) := by
      refine ⟨?_, ?_, ?_⟩
      · intro d hd
        obtain ⟨hdc, hdD⟩ := Finset.mem_erase.mp hd
        obtain ⟨k, hk1, hk2⟩ := h1 d hdD
        have hkn : k ≠ m := by
          intro he
          subst he
          exact hdc (h3 d hdD c hc (hk1.trans hm1.symm))
        refine ⟨k, ?_, Finset.mem_erase.mpr ⟨hkn, hk2⟩⟩
        show (if d = c then none else τ d) = some k
        rw [if_neg hdc]
        exact hk1
      · intro d hd
        show (if d = c then none else τ d) = none
        by_cases hdc : d = c
        · rw [if_pos hdc]
        · rw [if_neg hdc]
          refine h2 d ?_
          intro hdD
          exact hd (Finset.mem_erase.mpr ⟨hdc, hdD⟩)
      · intro d hd d' hd' heq
        replace heq : (if d = c then none else τ d) =
            (if d' = c then none else τ d') := heq
        obtain ⟨hdc, hdD⟩ := Finset.mem_erase.mp hd
        obtain ⟨hdc', hdD'⟩ := Finset.mem_erase.mp hd'
        rw [if_neg hdc, if_neg hdc'] at heq
        exact h3 d hdD d' hdD' heq
    have hrw := ih _ hsol
    funext d
    by_cases hdc : d = c
    · subst hdc
      simp [hm1]
    · have hd : (if d = c then none else τ d) = σ d := congrFun hrw d
      rw [if_neg hdc] at hd
      show τ d = if d = c then some m else σ d
      rw [if_neg hdc]
      exact hd

/-- C9. The embedded resolver is a function — running it twice on the same
input yields the same mapping — and elimination is order-independent: any
two complete elimination runs from the same candidate sets, whatever their
choices among simultaneously available singleton columns, reach the same
final assignment. -/
theorem resolver_order_independent :
    (∀ (rules : List Rule) (yourTicket : List Int)
      (nearbyTickets : List (List Int)),
      decypher_core rules yourTicket nearbyTickets =
        decypher_core rules yourTicket nearbyTickets) ∧
    (∀ (D : Finset Nat) (P : Nat → Finset String)
      (σ₁ σ₂ : Nat → Option String), Elim D P σ₁ → Elim D P σ₂ → σ₁ = σ₂) :=
  ⟨fun _ _ _ => rfl,
   fun _ _ _ σ₂ h1 h2 => (elim_unique h1 σ₂ (elim_isSol h2)).symm⟩

/-- Witness for `resolver_order_independent`: on the candidate map `exElimP`,
eliminating column 0 first or column 1 first reaches the same assignment. -/
theorem resolver_order_witness :
    (fun d : Nat =>
      if d = 0 then some "a" else if d = 1 then some "b" else (none : Option String)) =
    (fun d : Nat =>
      if d = 1 then some "b" else if d = 0 then some "a" else none) := by
  have e1 : ((({0, 1} : Finset Nat).erase 0).erase 1) = ∅ := by decide
  have e2 : ((({0, 1} : Finset Nat).erase 1).erase 0) = ∅ := by decide
  have b1 : Elim ((({0, 1} : Finset Nat).erase 0).erase 1)
      (fun d => ((exElimP d).erase "a").erase "b") (fun _ => none) := by
    rw [e1]
    exact Elim.done _
  have b2 : Elim ((({0, 1} : Finset Nat).erase 1).erase 0)
      (fun d => ((exElimP d).erase "b").erase "a") (fun _ => none) := by
    rw [e2]
    exact Elim.done _
  have s1 : Elim (({0, 1} : Finset Nat).erase 0) (fun d => (exElimP d).erase "a")
      (fun d => if d = 1 then some "b" else none) :=
    Elim.step (({0, 1} : Finset Nat).erase 0) (fun d => (exElimP d).erase "a")
      (fun _ => none) 1 "b" (by decide) (by decide) b1
  have s2 : Elim (({0, 1} : Finset Nat).erase 1) (fun d => (exElimP d).erase "b")
      (fun d => if d = 0 then some "a" else none) :=
    Elim.step (({0, 1} : Finset Nat).erase 1) (fun d => (exElimP d).erase "b")
      (fun _ => none) 0 "a" (by decide) (by decide) b2
  have d1 : Elim ({0, 1} : Finset Nat) exElimP
      (fun d : Nat =>
        if d = 0 then some "a" else if d = 1 then some "b" else none) :=
    Elim.step ({0, 1} : Finset Nat) exElimP
      (fun d => if d = 1 then some "b" else none) 0 "a" (by decide) (by decide) s1
  have d2 : Elim ({0, 1} : Finset Nat) exElimP
      (fun d : Nat =>
        if d = 1 then some "b" else if d = 0 then some "a" else none) :=
    Elim.step ({0, 1} : Finset Nat) exElimP
      (fun d => if d = 0 then some "a" else none) 1 "b" (by decide) (by decide) s2
  exact resolver_order_independent.2 ({0, 1} : Finset Nat) exElimP _ _ d1 d2
